import Mathlib

/-!
Shallow embedding of the DKM batch-ingestion ledger and grouped-table PDF
pipeline (`DkmFiscbestdocProcessor`, `DkmDailyBestDocProcessor`,
`DkmFiscdepetProcessor` services), together with theorems settling the
specification claims about it.

Conventions of the embedding:
* Python dicts are modelled as insertion-ordered association lists with
  unique keys (`alistLookup` / `alistSet`).
* Wall-clock timestamps (`datetime.utcnow()`) are threaded in as an explicit
  `now : String` argument.
* Monetary / weight fields that the source holds as floats are carried as
  `Int`; the claims under study depend only on which cells are empty and on
  orderings of integer sequence numbers, never on float arithmetic or on the
  exact `:.2f` rendering, which is abstracted by `toString`.
* External collaborators (the Azure blob transport, JSON decoding, the
  reportlab canvas and its `stringWidth` measurer, the table flowable) enter
  as explicit parameters: a read outcome, pre-decoded payload lists, a
  measurer `mw : String → Nat`, and a height/split abstraction.
-/

namespace DkmSpec

/-! ### Association lists modelling Python dicts (insertion order, unique keys) -/

def alistLookup {κ α : Type} [DecidableEq κ] (m : List (κ × α)) (k : κ) : Option α :=
  (m.find? (fun p => decide (p.1 = k))).map (·.2)

def alistSet {κ α : Type} [DecidableEq κ] (m : List (κ × α)) (k : κ) (v : α) :
    List (κ × α) :=
  if (m.find? (fun p => decide (p.1 = k))).isSome then
    m.map (fun p => if p.1 = k then (k, v) else p)
  else m ++ [(k, v)]

/-! ### Python string primitives used by the state manager -/

/-- The apostrophe character (U+0027), written via its code point. -/
def apos : Char := Char.ofNat 39

/-- Python `s.replace(c, "")` for a single-character pattern: delete every
occurrence of `c`. -/
def removeChar (s : String) (c : Char) : String := ⟨s.data.filter (fun a => a ≠ c)⟩

/-- Python `str.upper` (ASCII range, which covers every client name and key
this system handles). -/
def pyUpper (s : String) : String := ⟨s.data.map Char.toUpper⟩

/-- Python `str.isdigit`: nonempty and all characters are digits. -/
def pyIsDigit (s : String) : Bool := s.length != 0 && s.data.all (·.isDigit)

/-- Accumulator-style splitter behind `pyWords`: `cur` holds the current
word's characters in reverse. -/
def pyWordsAux : List Char → List Char → List String
  | [], cur => if cur = [] then [] else [String.mk cur.reverse]
  | c :: cs, cur =>
    if c.isWhitespace then
      if cur = [] then pyWordsAux cs []
      else String.mk cur.reverse :: pyWordsAux cs []
    else pyWordsAux cs (c :: cur)

/-- Python `str.split()` with no argument: split on whitespace runs,
dropping empty fragments. -/
def pyWords (s : String) : List String := pyWordsAux s.data []

/-- Python `str.strip()`: drop leading and trailing whitespace. -/
def pyStrip (s : String) : String :=
  ⟨((s.data.dropWhile (fun c => c.isWhitespace)).reverse.dropWhile
      (fun c => c.isWhitespace)).reverse⟩

/-- `generate_client_month_key` (DkmFiscbestdocProcessor/services/state_manager.py,
lines 62-72): `KLANT_YYYYMM` from a `YYYYMMDD` date; the client name has the
space, dash and apostrophe characters deleted and is uppercased. -/
def generate_client_month_key (klant datum : String) : String :=
  let year_month :=
    if datum.length = 8 && pyIsDigit datum then datum.take 6
    else if 6 ≤ datum.length then datum.take 6 else datum
  let clean_klant := pyUpper (removeChar (removeChar (removeChar klant ' ') '-') apos)
  clean_klant ++ "_" ++ year_month

/-! ### The durable ledger (`Bestdoc_state.json`) of DkmFiscbestdocProcessor -/

/-- `metadata` object of the state document. -/
structure Metadata where
  version : String
  created : String
  last_modified : String
  description : String
deriving Repr, DecidableEq

/-- `statistics` object of the state document. -/
structure Statistics where
  total_records : Nat
  pending_bestdocs : Nat
  generated_bestdocs : Nat
  last_5pm_run : Option String
  last_5pm_processed_count : Nat
deriving Repr, DecidableEq

/-- One element of the ledger's `records` array. -/
structure RecordEntry where
  internfactuurnummer : Int
  klant : String
  datum : String
  added_at : String
  bestdoc : Bool
  bestdoc_generated_at : Option String
  bestdoc_filename : Option String
deriving Repr, DecidableEq

/-- A raw incoming record as handed to the state manager.  Each field is the
result of `record.get(KEY)` on the incoming dict; `none` is Python `None`
(key absent). -/
structure IncomingRecord where
  INTERNFACTUURNUMMER : Option Int
  KLANT : Option String
  DATUM : Option String
  PROCESSFACTUURNUMMER : Option Int
  RELATIECODE_KLANT : Option String
  REFERENTIE_KLANT : Option String
  RELATIECODE_LEVERANCIER : Option String
  CLIENT_NAAM : Option String
  CLIENT_STRAAT_EN_NUMMER : Option String
  CLIENT_POSTCODE : Option String
  CLIENT_STAD : Option String
  CLIENT_LANDCODE : Option String
  CLIENT_PLDA_OPERATORIDENTITY : Option String
  CLIENT_LANGUAGE : Option String
  MRN : Option String
  DECLARATIONID : Option Int
  EXPORTERNAME : Option String
  LINE_ITEMS : Option String
deriving Repr, DecidableEq

/-- One element of a `pending_by_client_month` group: the full-table-data
`pending_object` built by `add_records_to_state` (state_manager.py 110-130). -/
structure PendingObj where
  id : Int
  INTERNFACTUURNUMMER : Int
  PROCESSFACTUURNUMMER : Option Int
  RELATIECODE_KLANT : String
  REFERENTIE_KLANT : String
  RELATIECODE_LEVERANCIER : String
  DATUM : Option String
  KLANT : Option String
  CLIENT_NAAM : Option String
  CLIENT_STRAAT_EN_NUMMER : Option String
  CLIENT_POSTCODE : Option String
  CLIENT_STAD : Option String
  CLIENT_LANDCODE : Option String
  CLIENT_PLDA_OPERATORIDENTITY : Option String
  CLIENT_LANGUAGE : Option String
  MRN : Option String
  DECLARATIONID : Option Int
  EXPORTERNAME : Option String
  LINE_ITEMS : Option String
deriving Repr, DecidableEq

/-- The whole `Bestdoc_state.json` document. -/
structure BestdocState where
  metadata : Metadata
  statistics : Statistics
  records : List RecordEntry
  pending_by_client_month : List (String × List PendingObj)
deriving Repr, DecidableEq

/-- The default state built in `get_state`'s `except` branch
(state_manager.py 31-49). -/
def initial_state (now : String) : BestdocState :=
  { metadata :=
      { version := "1.0"
        created := now
        last_modified := now
        description := "Tracks debet notes and their bestemmingsdocument generation status" }
    statistics :=
      { total_records := 0
        pending_bestdocs := 0
        generated_bestdocs := 0
        last_5pm_run := none
        last_5pm_processed_count := 0 }
    records := []
    pending_by_client_month := [] }

/-- Outcome of the blob read performed inside `get_state`'s `try` block.  The
`except Exception` clause catches every failure mode uniformly: a missing
blob, a transport/credential error, and an unparseable document. -/
inductive ReadOutcome (α : Type) : Type where
  | ok (s : α)
  | notFound
  | transportError
  | parseError
deriving Repr, DecidableEq

/-- `get_state` (DkmFiscbestdocProcessor/services/state_manager.py 23-49):
return the parsed state document, or the initial state on any failure. -/
def get_state (r : ReadOutcome BestdocState) (now : String) : BestdocState :=
  match r with
  | ReadOutcome.ok s => s
  | _ => initial_state now

/-- `get_bestdoc_state` (DkmFiscdepetProcessor/services/bestdoc_state_manager.py
26-55): identical read contract and identical default document. -/
def get_bestdoc_state (r : ReadOutcome BestdocState) (now : String) : BestdocState :=
  match r with
  | ReadOutcome.ok s => s
  | _ => initial_state now

/-- The `fiscdebet_state.json` document of DkmFiscdepetProcessor. -/
structure FiscdepetState where
  lastProcessedId : Int
  pendingIds : List Int
  pendingCreated : List (String × String)
deriving Repr, DecidableEq

/-- `get_state` (DkmFiscdepetProcessor/services/state_manager.py 30-39):
return the parsed state, or `{"lastProcessedId": 0, "pendingIds": [],
"pendingCreated": {}}` on any failure. -/
def fiscdepet_get_state (r : ReadOutcome FiscdepetState) : FiscdepetState :=
  match r with
  | ReadOutcome.ok s => s
  | _ => { lastProcessedId := 0, pendingIds := [], pendingCreated := [] }

/-- The ledger entry appended to `records` for a new id
(state_manager.py 91-99). -/
def mkRecordEntry (r : IncomingRecord) (now : String) (intern_id : Int) : RecordEntry :=
  { internfactuurnummer := intern_id
    klant := r.KLANT.getD ""
    datum := r.DATUM.getD ""
    added_at := now
    bestdoc := false
    bestdoc_generated_at := none
    bestdoc_filename := none }

/-- The `pending_object` appended to the client-month group
(state_manager.py 110-130). -/
def mkPendingObj (r : IncomingRecord) (intern_id : Int) : PendingObj :=
  { id := intern_id
    INTERNFACTUURNUMMER := intern_id
    PROCESSFACTUURNUMMER := r.PROCESSFACTUURNUMMER
    RELATIECODE_KLANT := r.RELATIECODE_KLANT.getD ""
    REFERENTIE_KLANT := r.REFERENTIE_KLANT.getD ""
    RELATIECODE_LEVERANCIER := r.RELATIECODE_LEVERANCIER.getD ""
    DATUM := r.DATUM
    KLANT := r.KLANT
    CLIENT_NAAM := r.CLIENT_NAAM
    CLIENT_STRAAT_EN_NUMMER := r.CLIENT_STRAAT_EN_NUMMER
    CLIENT_POSTCODE := r.CLIENT_POSTCODE
    CLIENT_STAD := r.CLIENT_STAD
    CLIENT_LANDCODE := r.CLIENT_LANDCODE
    CLIENT_PLDA_OPERATORIDENTITY := r.CLIENT_PLDA_OPERATORIDENTITY
    CLIENT_LANGUAGE := r.CLIENT_LANGUAGE
    MRN := r.MRN
    DECLARATIONID := r.DECLARATIONID
    EXPORTERNAME := r.EXPORTERNAME
    LINE_ITEMS := r.LINE_ITEMS }

/-- `if client_month_key not in pending_by_client_month:
pending_by_client_month[client_month_key] = []` (state_manager.py 106-107). -/
def pendingAfterCreate (pend : List (String × List PendingObj)) (key : String) :
    List (String × List PendingObj) :=
  if (alistLookup pend key).isNone then pend ++ [(key, [])] else pend

/-- `if intern_id not in existing_ids_in_group:
pending_by_client_month[client_month_key].append(pending_object)`
(state_manager.py 132-137). -/
def pendingAfterAppend (pend : List (String × List PendingObj)) (key : String)
    (r : IncomingRecord) (intern_id : Int) : List (String × List PendingObj) :=
  if ¬ (((alistLookup pend key).getD []).map (·.id)).contains intern_id then
    alistSet pend key (((alistLookup pend key).getD []) ++ [mkPendingObj r intern_id])
  else pend

/-- Loop body of `add_records_to_state` (state_manager.py 87-137).  The
accumulator carries (`new_records`, `pending_by_client_month`); note that the
source computes `existing_ids` once, before the loop, and never extends it
inside the loop.  Python truthiness of `intern_id` skips both `None` and `0`. -/
def addRecordsStep (now : String) (existing_ids : List Int)
    (acc : List RecordEntry × List (String × List PendingObj)) (r : IncomingRecord) :
    List RecordEntry × List (String × List PendingObj) :=
  match r.INTERNFACTUURNUMMER with
  | none => acc
  | some intern_id =>
    if intern_id ≠ 0 ∧ ¬ existing_ids.contains intern_id then
      (acc.1 ++ [mkRecordEntry r now intern_id],
       pendingAfterAppend
         (pendingAfterCreate acc.2
           (generate_client_month_key (r.KLANT.getD "") (r.DATUM.getD "")))
         (generate_client_month_key (r.KLANT.getD "") (r.DATUM.getD "")) r intern_id)
    else acc

/-- `add_records_to_state` (state_manager.py 75-150): dedup against the
already-saved `records` ids, append ledger entries and pending objects, and
save (modelled by returning the state that would be written). -/
def add_records_to_state (incoming_data : List IncomingRecord) (now : String)
    (state : BestdocState) : BestdocState :=
  if incoming_data = [] then state
  else
    let existing_ids := state.records.map (·.internfactuurnummer)
    let res := incoming_data.foldl (addRecordsStep now existing_ids)
      ([], state.pending_by_client_month)
    if res.1 = [] then state
    else
      let records := state.records ++ res.1
      { state with
        metadata := { state.metadata with last_modified := now }
        records := records
        pending_by_client_month := res.2
        statistics :=
          { state.statistics with
            total_records := records.length
            pending_bestdocs := (records.filter (fun r => ¬ r.bestdoc)).length } }

/-- `filter_already_processed` (state_manager.py 224-246): drop exactly the
incoming records whose id is in the set of ids already marked
`bestdoc = true`; Python `None in set-of-ints` is `False`, so id-less records
pass through. -/
def filter_already_processed (state : BestdocState)
    (incoming_data : List IncomingRecord) : List IncomingRecord :=
  if incoming_data = [] then []
  else
    let processed_ids :=
      (state.records.filter (fun r => r.bestdoc)).map (·.internfactuurnummer)
    incoming_data.filter (fun r =>
      match r.INTERNFACTUURNUMMER with
      | some n => ¬ processed_ids.contains n
      | none => true)

/-- `filterUnseen` as the specification words it (spec §4.2): keep exactly
the records whose id is not already present in the ledger at all, whether or
not the matching entry is marked processed.  Stated for comparison with
`filter_already_processed`, which is what the source implements. -/
def filterUnseen_spec (state : BestdocState)
    (incoming_data : List IncomingRecord) : List IncomingRecord :=
  incoming_data.filter (fun r =>
    match r.INTERNFACTUURNUMMER with
    | some n => ¬ (state.records.map (·.internfactuurnummer)).contains n
    | none => true)

/-- The `record_status` dict of `get_unprocessed_pending_groups`
(state_manager.py 160): a dict comprehension, so a later duplicate entry
overwrites an earlier one; ids absent from `records` default to `False`. -/
def record_status (records : List RecordEntry) (i : Int) : Bool :=
  (((records.reverse.find? (fun r => decide (r.internfactuurnummer = i))).map
      (·.bestdoc)).getD false)

/-- `get_unprocessed_pending_groups` (state_manager.py 153-176): per group,
keep the members whose record is not marked processed; omit groups whose
filtered list is empty.  Pure read-side projection. -/
def get_unprocessed_pending_groups (state : BestdocState) :
    List (String × List PendingObj) :=
  ((state.pending_by_client_month.map
      (fun p => (p.1, p.2.filter (fun o => ¬ record_status state.records o.id)))).filter
    (fun p => ¬ p.2.isEmpty))

/-- One element of `generated_files` in `update_after_processing`: the
filename plus the `metadata["internfactuurnummer"]` id list (the scalar
variant of the source is the singleton list). -/
structure GeneratedFile where
  filename : String
  metadata_internfactuurnummer : List Int
deriving Repr, DecidableEq

/-- Per-record mutation of `update_after_processing` (state_manager.py
191-206): mark matching ids processed and attach the first matching
generated filename; a record with no matching file keeps its old filename. -/
def markRecord (all_processed_ids : List Int) (generated_files : List GeneratedFile)
    (now : String) (r : RecordEntry) : RecordEntry :=
  if all_processed_ids.contains r.internfactuurnummer then
    { r with
      bestdoc := true
      bestdoc_generated_at := some now
      bestdoc_filename :=
        match generated_files.find?
            (fun f => f.metadata_internfactuurnummer.contains r.internfactuurnummer) with
        | some f => some f.filename
        | none => r.bestdoc_filename }
  else r

/-- `update_after_processing` (state_manager.py 179-221): mark the ids of
`processed_groups` as processed; `pending_by_client_month` is deliberately
left unchanged ("for historical reference"). -/
def update_after_processing (processed_groups : List (String × List Int))
    (generated_files : List GeneratedFile) (now : String)
    (state : BestdocState) : BestdocState :=
  let all_processed_ids := processed_groups.foldl (fun acc p => acc ++ p.2) []
  let records := state.records.map (markRecord all_processed_ids generated_files now)
  { state with
    metadata := { state.metadata with last_modified := now }
    records := records
    statistics :=
      { state.statistics with
        generated_bestdocs := state.statistics.generated_bestdocs + all_processed_ids.length
        pending_bestdocs := (records.filter (fun r => ¬ r.bestdoc)).length
        last_5pm_run := some now
        last_5pm_processed_count := all_processed_ids.length } }

/-! ### The data transformer (`transform_client_group`) -/

/-- A decoded element of a stored record's `LINE_ITEMS` JSON array (JSON
decoding itself is an external collaborator). -/
structure RawLineItem where
  goederenomschrijving : String
  goederencode : String
  aantal_gewicht : Int
  verkoopwaarde : Int
  zendtarieflijnnummer : Int
  netmass : Int
deriving Repr, DecidableEq

/-- A stored record as consumed by `transform_client_group`, with its
`LINE_ITEMS` payload already decoded.  The client/date header fields feed
only the `ClientInfo`/`RecordInfo` outputs, which are orthogonal to the
line-item ordering claims; they are modelled by `RecordInfo` below. -/
structure StoredRecord where
  INTERNFACTUURNUMMER : Int
  LINE_ITEMS : List RawLineItem
deriving Repr, DecidableEq

/-- The transformer's output line item (`LineItem` dataclass in
models/bestemmings_data.py) with its source back-reference. -/
structure TLineItem where
  goederenomschrijving : String
  goederencode : String
  aantal_gewicht : Int
  verkoopwaarde : Int
  zendtarieflijnnummer : Int
  netmass : Int
  source_internfactuurnummer : Int
deriving Repr, DecidableEq

def mkTLineItem (rid : Int) (it : RawLineItem) : TLineItem :=
  { goederenomschrijving := it.goederenomschrijving
    goederencode := it.goederencode
    aantal_gewicht := it.aantal_gewicht
    verkoopwaarde := it.verkoopwaarde
    zendtarieflijnnummer := it.zendtarieflijnnummer
    netmass := it.netmass
    source_internfactuurnummer := rid }

/-- `all_line_items` accumulation of DkmFiscbestdocProcessor
transform_client_group (data_transformer.py 82-108): for each record in
order, append its line items in their stored order; no sorting. -/
def fb_all_line_items (records : List StoredRecord) : List TLineItem :=
  records.foldl
    (fun acc r => acc ++ r.LINE_ITEMS.map (mkTLineItem r.INTERNFACTUURNUMMER)) []

/-- Ordering of the Daily transformer's final
`all_line_items.sort(key=lambda x: x.zendtarieflijnnummer)`. -/
def itemRel (a b : TLineItem) : Prop :=
  a.zendtarieflijnnummer ≤ b.zendtarieflijnnummer

instance : DecidableRel itemRel := fun a b =>
  inferInstanceAs (Decidable (a.zendtarieflijnnummer ≤ b.zendtarieflijnnummer))

instance : IsTotal TLineItem itemRel :=
  ⟨fun a b => le_total a.zendtarieflijnnummer b.zendtarieflijnnummer⟩

instance : IsTrans TLineItem itemRel :=
  ⟨fun _ _ _ hab hbc => le_trans hab hbc⟩

/-- `all_line_items` of DkmDailyBestDocProcessor transform_client_group
(data_transformer.py 75-97): the same accumulation followed by a stable
ascending sort of the whole list by `zendtarieflijnnummer` (line 92).
Python's `list.sort` is stable, and a stable sort's output is uniquely
determined by its comparator, so the stable insertion sort models it
exactly. -/
def daily_all_line_items (records : List StoredRecord) : List TLineItem :=
  (fb_all_line_items records).insertionSort itemRel

/-! ### The table-row builder of `draw_table` -/

/-- `RecordInfo` dataclass (models/bestemmings_data.py). -/
structure RecordInfo where
  internfactuurnummer : Int
  processfactuurnummer : Int
  datum : String
  formatted_date : String
  mrn : String
  declarationid : Int
  exportername : String
  reference : String
  klant : String
deriving Repr, DecidableEq

/-- `line_items_by_record` grouping dict (pdf_generator.py: Fiscbestdoc
188-193, Daily 182-186): bucket line items by source id in first-occurrence
order, preserving the in-bucket order of arrival. -/
def line_items_by_record (items : List TLineItem) : List (Int × List TLineItem) :=
  items.foldl
    (fun m item =>
      let rid := item.source_internfactuurnummer
      let m1 := if (alistLookup m rid).isNone then m ++ [(rid, [])] else m
      alistSet m1 rid ((alistLookup m1 rid).getD [] ++ [item]))
    []

/-- Reference cell of the Fiscbestdoc first row (pdf_generator.py 220):
truncate at 50 characters with a `...` suffix. -/
def refCellFB (reference : String) : String :=
  if 50 < reference.length then reference.take 50 ++ "..." else reference

/-- Commodity cell of the Daily table (pdf_generator.py 200-205): code,
description and optional quantity joined by line breaks, stripped, then
newlines replaced by `<br/>`; Python falsiness makes quantity `0` and the
empty description vanish. -/
def commodityCell (it : TLineItem) : String :=
  let desc := it.goederenomschrijving
  let weight_str := if it.aantal_gewicht ≠ 0 then "Qty: " ++ toString it.aantal_gewicht else ""
  (pyStrip (it.goederencode ++ "\n" ++ desc ++ "\n" ++ weight_str)).replace "\n" "<br/>"

/-- First row of a record in the Fiscbestdoc table (pdf_generator.py
215-225): the six shared record columns followed by the item columns. -/
def rowFirstFB (r : RecordInfo) (it : TLineItem) : List String :=
  [r.mrn, toString r.declarationid, r.exportername, r.datum, refCellFB r.reference,
   toString r.processfactuurnummer, toString it.zendtarieflijnnummer,
   it.goederencode, toString it.verkoopwaarde]

/-- Subsequent row of a record in the Fiscbestdoc table (pdf_generator.py
228-233): six empty shared columns. -/
def rowRestFB (it : TLineItem) : List String :=
  ["", "", "", "", "", "", toString it.zendtarieflijnnummer, it.goederencode,
   toString it.verkoopwaarde]

/-- First row of a record in the Daily table (pdf_generator.py 209-219). -/
def rowFirstDaily (r : RecordInfo) (it : TLineItem) : List String :=
  [r.mrn, toString r.declarationid, r.exportername, r.datum, r.reference,
   toString r.processfactuurnummer, toString it.zendtarieflijnnummer,
   commodityCell it, toString it.verkoopwaarde]

/-- Subsequent row of a record in the Daily table (pdf_generator.py 223-226). -/
def rowRestDaily (it : TLineItem) : List String :=
  ["", "", "", "", "", "", toString it.zendtarieflijnnummer, commodityCell it,
   toString it.verkoopwaarde]

/-- The shared row-building loop of both `draw_table` variants (Fiscbestdoc
197-236, Daily 188-229), parameterised by the two cell constructors: walk the
records in supplied order, skip records with no items, record each record's
start row (`current_row` starts at 1, row 0 being the header), and emit one
row per line item, the first with the shared columns, the rest with empty
shared columns.  Returns (data rows, record_start_rows). -/
def buildTableRows (first : RecordInfo → TLineItem → List String)
    (rest : TLineItem → List String) (records : List RecordInfo)
    (items : List TLineItem) :
    List (List String) × List (Int × Nat) :=
  let byRec := line_items_by_record items
  let res := records.foldl
    (fun (acc : List (List String) × List (Int × Nat) × Nat) r =>
      match (alistLookup byRec r.internfactuurnummer).getD [] with
      | [] => acc
      | it0 :: restItems =>
        (acc.1 ++ (first r it0 :: restItems.map rest),
         (acc.2.1 ++ [(r.internfactuurnummer, acc.2.2)],
          acc.2.2 + (restItems.length + 1))))
    ([], ([], 1))
  (res.1, res.2.1)

/-- The group-boundary rules of the Daily table (pdf_generator.py 282-286):
a `LINEABOVE` rule over the shared columns at the start row of every record
except the one starting at data row 1. -/
def boundaryRules (record_start_rows : List (Int × Nat)) : List Nat :=
  (record_start_rows.filter (fun p => decide (1 < p.2))).map (·.2)

/-! ### Pagination loop of the Daily `draw_table` (pdf_generator.py 294-378) -/

/-- Abstraction of the reportlab `Table` flowable handed to the loop: the
height of the repeated header row (`repeatRows=1`) and the identified body
rows with their heights. -/
structure PTable where
  header : Nat
  rows : List (Nat × Nat)
deriving Repr, DecidableEq

/-- `table.wrap(...)[1]`: total rendered height. -/
def wrapHeight (t : PTable) : Nat := t.header + (t.rows.map (·.2)).sum

/-- Greedy fitting prefix used by `table.split`: rows accepted while the
accumulated height (starting from the repeated header) stays within the
available height. -/
def takeFitting (avail : Int) : Nat → List (Nat × Nat) → List (Nat × Nat) × List (Nat × Nat)
  | _, [] => ([], [])
  | used, r :: rs =>
    if ((used + r.2 : Nat) : Int) ≤ avail then
      (r :: (takeFitting avail (used + r.2) rs).1, (takeFitting avail (used + r.2) rs).2)
    else ([], r :: rs)

/-- `table.split(width, avail)` of the flowable contract: `[]` when not even
one row fits, `[t]` when everything fits, otherwise a fitting piece and a
remainder piece, each carrying the repeated header. -/
def pySplit (t : PTable) (avail : Int) : List PTable :=
  if (takeFitting avail t.header t.rows).1 = [] then []
  else if (takeFitting avail t.header t.rows).2 = [] then [t]
  else [{ header := t.header, rows := (takeFitting avail t.header t.rows).1 },
        { header := t.header, rows := (takeFitting avail t.header t.rows).2 }]

/-- Canvas events the pagination loop emits: drawing a table piece
(`drawOn`) and a page break (`showPage`). -/
inductive Ev : Type where
  | draw (t : PTable)
  | newPage
deriving Repr, DecidableEq

/-- `bottom_margin = 15*mm` (pdf_generator.py 298). -/
def bottomMargin : Int := 15

/-- The `20*mm` top offset used when resetting `y` on a fresh page
(pdf_generator.py 336, 370). -/
def freshTopOffset : Int := 20

/-- The `while True` pagination loop of the Daily `draw_table`
(pdf_generator.py 301-376), with `fuel` counting the iterations left before
the `loop_count > 50` guard force-draws the remainder and breaks.  The
fitted piece is drawn twice because the source duplicates the
`part0.drawOn` block verbatim (lines 352-360). -/
def drawLoop (pageHeight : Int) : Nat → PTable → Int → List Ev
  | 0, t, _ => [Ev.draw t]
  | fuel + 1, t, y =>
    if (wrapHeight t : Int) ≤ y - bottomMargin then [Ev.draw t]
    else
      match pySplit t (y - bottomMargin) with
      | [] =>
        match pySplit t ((pageHeight - freshTopOffset) - bottomMargin) with
        | [] => [Ev.newPage, Ev.draw t]
        | [part0] => [Ev.newPage, Ev.draw part0, Ev.draw part0]
        | part0 :: t1 :: _ =>
          [Ev.newPage, Ev.draw part0, Ev.draw part0, Ev.newPage] ++
            drawLoop pageHeight fuel t1 (pageHeight - freshTopOffset)
      | [part0] => [Ev.draw part0, Ev.draw part0]
      | part0 :: t1 :: _ =>
        [Ev.draw part0, Ev.draw part0, Ev.newPage] ++
          drawLoop pageHeight fuel t1 (pageHeight - freshTopOffset)

/-- Entry point of the pagination loop: `loop_count` starts at 0 and the
guard trips strictly beyond 50, so 50 regular iterations are available. -/
def draw_table_pagination (pageHeight : Int) (t : PTable) (y : Int) : List Ev :=
  drawLoop pageHeight 50 t y

/-- The row ids drawn by a sequence of canvas events, in drawing order. -/
def rowsDrawn (evs : List Ev) : List Nat :=
  evs.flatMap (fun e =>
    match e with
    | Ev.draw t => t.rows.map (·.1)
    | Ev.newPage => [])

/-! ### Greedy word wrappers -/

/-- `f"{current_line} {word}".strip()` where both pieces are free of leading
and trailing whitespace: the separating space vanishes exactly when
`current_line` is empty. -/
def wrapConcat (cur w : String) : String := if cur = "" then w else cur ++ " " ++ w

/-- Loop of `wrap_text` (Fiscbestdoc pdf_generator.py 305-325 and Daily
pdf_generator.py 380-391, identical logic): accumulate words while the
measured candidate stays within `max_width`; an unfinished line is flushed
at the end.  When the current line is empty and the word alone exceeds the
limit, the word still becomes the current line. -/
def wrapLines (mw : String → Nat) (maxWidth : Nat) : List String → String → List String
  | [], cur => if cur = "" then [] else [cur]
  | w :: ws, cur =>
    let test_line := wrapConcat cur w
    if mw test_line ≤ maxWidth then wrapLines mw maxWidth ws test_line
    else if cur = "" then wrapLines mw maxWidth ws w
    else cur :: wrapLines mw maxWidth ws w

/-- `wrap_text(c, text, max_width, font, size)` with the canvas measurer
abstracted to `mw`. -/
def wrap_text (mw : String → Nat) (text : String) (maxWidth : Nat) : List String :=
  wrapLines mw maxWidth (pyWords text) ""

/-- Loop of `wrap_description` (DkmFiscdepetProcessor pdf_generator.py
209-236): same greedy accumulation, but a word that exceeds the limit while
the current line is empty is emitted truncated to its first 30 characters
plus `"..."`. -/
def wrapDescLines (mw : String → Nat) (maxWidth : Nat) : List String → String → List String
  | [], cur => if cur = "" then [] else [cur]
  | w :: ws, cur =>
    let test_line := if cur = "" then w else cur ++ " " ++ w
    if mw test_line ≤ maxWidth then wrapDescLines mw maxWidth ws test_line
    else if cur = "" then (w.take 30 ++ "...") :: wrapDescLines mw maxWidth ws ""
    else cur :: wrapDescLines mw maxWidth ws w

/-- `wrap_description(text, max_width, font, size)` with the measurer
abstracted to `mw`. -/
def wrap_description (mw : String → Nat) (text : String) (maxWidth : Nat) : List String :=
  wrapDescLines mw maxWidth (pyWords text) ""

/-- `String.length` is a legitimate measurer: one unit per character. -/
def lenMw (s : String) : Nat := s.length

/-! ### The paginated item table of DkmFiscdepetProcessor
(`draw_professional_table`, pdf_generator.py 238-364) -/

/-- A debet-note line item as drawn by `draw_professional_table`. -/
structure DepetItem where
  goederencode : String
  goederenomschrijving : String
  aantal_gewicht : Int
  netmass : Int
  supplementaryunits : Int
  verkoopwaarde : Int
  typepackages : String
deriving Repr, DecidableEq

/-- Canvas events of `draw_professional_table`: drawing the table header,
drawing the row of item index `i`, and a page break. -/
inductive TEv : Type where
  | header
  | row (i : Nat)
  | page
deriving Repr, DecidableEq

/-- Row height (pdf_generator.py 296-307): wrap the uppercased description,
keep at most 3 lines, `max(min_row_height, lines * 10 + 8)` with
`min_row_height = 18`. -/
def depet_row_height (mw : String → Nat) (descMaxWidth : Nat) (it : DepetItem) : Nat :=
  let desc_lines := (wrap_description mw (pyUpper it.goederenomschrijving) descMaxWidth).take 3
  max 18 (desc_lines.length * 10 + 8)

/-- Row loop of `draw_professional_table` (pdf_generator.py 294-361).
`freshY` is the working `y` obtained after a page break and the header
redraw (`height - 25*mm` minus the header height); `minY` is `min_y`.
A row that does not fit triggers a page break and a header redraw, then the
row is drawn unconditionally. -/
def depetRows (mw : String → Nat) (descMaxWidth : Nat) (freshY minY : Int) :
    List (Nat × DepetItem) → Int → List TEv
  | [], _ => []
  | (i, it) :: restItems, y =>
    if y - (depet_row_height mw descMaxWidth it : Int) < minY then
      TEv.page :: TEv.header :: TEv.row i ::
        depetRows mw descMaxWidth freshY minY restItems
          (freshY - (depet_row_height mw descMaxWidth it : Int))
    else
      TEv.row i :: depetRows mw descMaxWidth freshY minY restItems
        (y - (depet_row_height mw descMaxWidth it : Int))

/-- `draw_professional_table` (pdf_generator.py 238-364): nothing for an
empty item list; otherwise the initial header (which consumes
`header_height = 20`) followed by the row loop over the enumerated items. -/
def draw_professional_table (mw : String → Nat) (descMaxWidth : Nat)
    (freshY minY : Int) (y : Int) (items : List DepetItem) : List TEv :=
  match items with
  | [] => []
  | _ => TEv.header :: depetRows mw descMaxWidth freshY minY items.enum (y - 20)

def countRowEvents (t : List TEv) : Nat :=
  (t.filter (fun e => match e with | TEv.row _ => true | _ => false)).length

def countHeaderEvents (t : List TEv) : Nat :=
  (t.filter (fun e => match e with | TEv.header => true | _ => false)).length

def countPageBreaks (t : List TEv) : Nat :=
  (t.filter (fun e => match e with | TEv.page => true | _ => false)).length

/-! ### Concrete fixtures used by witnesses and counterexamples -/

/-- An incoming record with only the fields the ingestion path reads. -/
def mkIncoming (i : Option Int) (klant datum : String) : IncomingRecord :=
  { INTERNFACTUURNUMMER := i
    KLANT := some klant
    DATUM := some datum
    PROCESSFACTUURNUMMER := none
    RELATIECODE_KLANT := none
    REFERENTIE_KLANT := none
    RELATIECODE_LEVERANCIER := none
    CLIENT_NAAM := none
    CLIENT_STRAAT_EN_NUMMER := none
    CLIENT_POSTCODE := none
    CLIENT_STAD := none
    CLIENT_LANDCODE := none
    CLIENT_PLDA_OPERATORIDENTITY := none
    CLIENT_LANGUAGE := none
    MRN := none
    DECLARATIONID := none
    EXPORTERNAME := none
    LINE_ITEMS := none }

/-- A raw line item fixture with a given sequence number. -/
def mkRawItem (seq : Int) : RawLineItem :=
  { goederenomschrijving := "GOODS"
    goederencode := "0101"
    aantal_gewicht := 1
    verkoopwaarde := 100
    zendtarieflijnnummer := seq
    netmass := 1 }

/-- A transformer-level line item fixture. -/
def mkTItem (seq rid : Int) : TLineItem := mkTLineItem rid (mkRawItem seq)

/-- A record-info fixture for the row builder. -/
def mkRecInfo (i : Int) (mrn : String) : RecordInfo :=
  { internfactuurnummer := i
    processfactuurnummer := i + 1000
    datum := "05/11/25"
    formatted_date := "05/11/2025"
    mrn := mrn
    declarationid := i + 2000
    exportername := "EXPORTER"
    reference := "REF"
    klant := "ACME" }

/-- A ledger entry fixture. -/
def mkEntry (i : Int) (b : Bool) : RecordEntry :=
  { internfactuurnummer := i
    klant := "ACME"
    datum := "20251103"
    added_at := "T0"
    bestdoc := b
    bestdoc_generated_at := none
    bestdoc_filename := none }

/-- The duplicated incoming record of claim C1's failing batch. -/
def rdup : IncomingRecord := mkIncoming (some 101) "ACME" "20251103"

/-- An incoming record whose id is already in the ledger, unprocessed. -/
def rSeven : IncomingRecord := mkIncoming (some 7) "ACME" "20251103"

/-- A ledger holding id 7 as a present but not yet processed entry. -/
def stSeven : BestdocState :=
  { initial_state "T0" with records := [mkEntry 7 false] }

/-- A stored record whose items sit in descending sequence order. -/
def recDescending : StoredRecord :=
  { INTERNFACTUURNUMMER := 11, LINE_ITEMS := [mkRawItem 2, mkRawItem 1] }

/-- Record 11 with sequence numbers 1 and 3. -/
def recOneThree : StoredRecord :=
  { INTERNFACTUURNUMMER := 11, LINE_ITEMS := [mkRawItem 1, mkRawItem 3] }

/-- Record 22 with the single sequence number 2. -/
def recTwo : StoredRecord :=
  { INTERNFACTUURNUMMER := 22, LINE_ITEMS := [mkRawItem 2] }

/-- A pending-object fixture with a given id. -/
def oW (i : Int) : PendingObj := mkPendingObj (mkIncoming (some i) "ACME" "20251103") i

/-- Member list of the witness group for claim C4. -/
def membersW : List PendingObj := [oW 1, oW 2]

/-- A ledger with one two-member group, both members unprocessed. -/
def stW : BestdocState :=
  { initial_state "T0" with
    records := [mkEntry 1 false, mkEntry 2 false]
    pending_by_client_month := [("K", membersW)] }

/-- Processed groups marking only member 1 of group `K`. -/
def pgsW : List (String × List Int) := [("K", [1])]

/-- The generated file covering member 1. -/
def gfsW : List GeneratedFile :=
  [{ filename := "F.pdf", metadata_internfactuurnummer := [1] }]

/-- A two-row table that forces exactly one page split against the fixture
geometry (page height 100, initial `y` 30). -/
def tSplit : PTable := { header := 5, rows := [(0, 8), (1, 8)] }

/-- A single-row table taller than a full page body. -/
def tHuge : PTable := { header := 5, rows := [(0, 200)] }

/-- A depet item fixture whose description is a single long word. -/
def mkDepetItem (desc : String) : DepetItem :=
  { goederencode := "0101"
    goederenomschrijving := desc
    aantal_gewicht := 1
    netmass := 1
    supplementaryunits := 1
    verkoopwaarde := 100
    typepackages := "CT" }

/-! ## Theorems -/

/-! ### Association-list lemmas -/

theorem alistLookup_nil {κ α : Type} [DecidableEq κ] (k : κ) :
    alistLookup ([] : List (κ × α)) k = none := rfl

theorem alistLookup_cons {κ α : Type} [DecidableEq κ] (p : κ × α) (m : List (κ × α)) (k : κ) :
    alistLookup (p :: m) k = if p.1 = k then some p.2 else alistLookup m k := by
  by_cases h : p.1 = k <;> simp [alistLookup, List.find?, h]

theorem alistLookup_append {κ α : Type} [DecidableEq κ] (m m' : List (κ × α)) (k : κ) :
    alistLookup (m ++ m') k =
      match alistLookup m k with
      | some v => some v
      | none => alistLookup m' k := by
  induction m with
  | nil => simp [alistLookup]
  | cons p m ih =>
    by_cases h : p.1 = k
    · simp [alistLookup_cons, h]
    · simpa [alistLookup_cons, h] using ih

theorem alistLookup_map_set_of_ne {κ α : Type} [DecidableEq κ] (m : List (κ × α))
    (k k' : κ) (v : α) (h : k' ≠ k) :
    alistLookup (m.map (fun p => if p.1 = k' then (k', v) else p)) k = alistLookup m k := by
  induction m with
  | nil => simp
  | cons p m ih =>
    simp only [List.map_cons]
    rw [alistLookup_cons, alistLookup_cons]
    by_cases hp : p.1 = k'
    · rw [if_pos hp]
      have h2 : ¬ (p.1 = k) := fun hh => h (hp ▸ hh)
      have h1 : ¬ ((k', v).1 = k) := h
      rw [if_neg h1, if_neg h2, ih]
    · rw [if_neg hp]
      by_cases hk : p.1 = k
      · rw [if_pos hk, if_pos hk]
      · rw [if_neg hk, if_neg hk, ih]

theorem alistLookup_map_set_self {κ α : Type} [DecidableEq κ] (m : List (κ × α))
    (k : κ) (v : α) (hs : (m.find? (fun p => decide (p.1 = k))).isSome) :
    alistLookup (m.map (fun p => if p.1 = k then (k, v) else p)) k = some v := by
  induction m with
  | nil => simp [List.find?] at hs
  | cons p m ih =>
    by_cases hp : p.1 = k
    · simp [alistLookup_cons, hp]
    · have hs' : (m.find? (fun p => decide (p.1 = k))).isSome := by
        simpa [List.find?, hp] using hs
      simp [alistLookup_cons, hp, ih hs']

theorem alistLookup_set_self {κ α : Type} [DecidableEq κ] (m : List (κ × α)) (k : κ) (v : α) :
    alistLookup (alistSet m k v) k = some v := by
  unfold alistSet
  by_cases hs : (m.find? (fun p => decide (p.1 = k))).isSome
  · simpa [hs] using alistLookup_map_set_self m k v hs
  · rw [Option.not_isSome_iff_eq_none] at hs
    have hnone : alistLookup m k = none := by simp [alistLookup, hs]
    simp [hs, alistLookup_append, hnone, alistLookup_cons, alistLookup_nil]

theorem alistLookup_set_ne {κ α : Type} [DecidableEq κ] (m : List (κ × α)) (k k' : κ) (v : α)
    (h : k' ≠ k) : alistLookup (alistSet m k' v) k = alistLookup m k := by
  unfold alistSet
  by_cases hs : (m.find? (fun p => decide (p.1 = k'))).isSome
  · simpa [hs] using alistLookup_map_set_of_ne m k k' v h
  · simp [hs, alistLookup_append, alistLookup_cons, h]
    cases hm : alistLookup m k <;> simp [alistLookup_nil]

/-! ### `Char.toUpper` commutation lemmas -/

theorem toNat_ofNat_valid (n : Nat) (h : n.isValidChar) : (Char.ofNat n).toNat = n := by
  simp [Char.ofNat, h, Char.toNat, Char.ofNatAux, UInt32.toNat, BitVec.toNat_ofNatLt]

theorem toUpper_unfold (a : Char) :
    Char.toUpper a = if 97 ≤ a.toNat ∧ a.toNat ≤ 122 then Char.ofNat (a.toNat - 32) else a :=
  rfl

theorem toUpper_eq_low_iff (a c : Char) (hc : c.toNat < 65) :
    Char.toUpper a = c ↔ a = c := by
  constructor
  · intro h
    rw [toUpper_unfold] at h
    by_cases hrange : 97 ≤ a.toNat ∧ a.toNat ≤ 122
    · exfalso
      rw [if_pos hrange] at h
      have hvalid : (a.toNat - 32).isValidChar := by
        constructor
        omega
      have hcn : c.toNat = a.toNat - 32 := by rw [← h, toNat_ofNat_valid _ hvalid]
      omega
    · rwa [if_neg hrange] at h
  · intro h
    rw [h, toUpper_unfold]
    have hr : ¬ (97 ≤ c.toNat ∧ c.toNat ≤ 122) := by omega
    rw [if_neg hr]

theorem filter_map_toUpper_comm (l : List Char) (c : Char) (hc : c.toNat < 65) :
    (l.map Char.toUpper).filter (fun a => a ≠ c) =
      (l.filter (fun a => a ≠ c)).map Char.toUpper := by
  induction l with
  | nil => rfl
  | cons a l ih =>
    simp only [ne_eq, decide_not] at ih
    rcases eq_or_ne a c with h | h
    · subst h
      have hup : Char.toUpper a = a := (toUpper_eq_low_iff a a hc).mpr rfl
      simp [List.map_cons, List.filter_cons, hup, ih, ne_eq, decide_not]
    · have hup : ¬ (Char.toUpper a = c) := fun hh => h ((toUpper_eq_low_iff a c hc).mp hh)
      simp [List.map_cons, List.filter_cons, h, hup, ih, ne_eq, decide_not]

theorem pyUpper_removeChar_comm (s : String) (c : Char) (hc : c.toNat < 65) :
    pyUpper (removeChar s c) = removeChar (pyUpper s) c := by
  unfold pyUpper removeChar
  apply congrArg String.mk
  exact (filter_map_toUpper_comm s.data c hc).symm

/-- The full client-name normalisation factors through the space-removing,
uppercasing stage: dash and apostrophe deletion commute with uppercasing. -/
theorem clean_klant_factor (k : String) :
    pyUpper (removeChar (removeChar (removeChar k ' ') '-') apos) =
      removeChar (removeChar (pyUpper (removeChar k ' ')) '-') apos := by
  rw [pyUpper_removeChar_comm _ apos (by decide),
      pyUpper_removeChar_comm _ '-' (by decide)]

/-! ### Claim C2 -/

/-- C2 counterexample: a tab is whitespace, and `"Eurofins\tNV"` differs from
`"EurofinsNV"` only in whitespace (removing all whitespace from both yields
the same characters), yet `generate_client_month_key` maps them to different
keys, because the source deletes only the space character `" "`, not all
whitespace.  This refutes the claim as stated. -/
theorem C2_whitespace_counterexample :
    (Char.isWhitespace (Char.ofNat 9) = true) ∧
    ("Eurofins\tNV".data.filter (fun c => ¬ c.isWhitespace) =
      "EurofinsNV".data.filter (fun c => ¬ c.isWhitespace)) ∧
    generate_client_month_key "Eurofins\tNV" "20251105" ≠
      generate_client_month_key "EurofinsNV" "20251105" := by
  refine ⟨by decide, by decide, ?_⟩
  decide

/-- C2 (amended: "whitespace" narrowed to the space character, which is the
only whitespace the source deletes): the key deriver is a pure function; two
client names that agree after deleting spaces and uppercasing, paired with
any two 8-digit dates sharing their first six digits (same calendar month),
yield the same key; and the claim's concrete pair both map to
`EUROFINSNV_202511`. -/
theorem C2_group_key_deterministic :
    (∀ k1 k2 d1 d2 : String,
      pyUpper (removeChar k1 ' ') = pyUpper (removeChar k2 ' ') →
      d1.length = 8 → pyIsDigit d1 = true →
      d2.length = 8 → pyIsDigit d2 = true →
      d1.take 6 = d2.take 6 →
      generate_client_month_key k1 d1 = generate_client_month_key k2 d2) ∧
    generate_client_month_key "Eurofins NV" "20251105" = "EUROFINSNV_202511" ∧
    generate_client_month_key " EUROFINS   nv" "20251123" = "EUROFINSNV_202511" := by
  refine ⟨?_, by decide, by decide⟩
  intro k1 k2 d1 d2 hk h1 h1d h2 h2d hm
  unfold generate_client_month_key
  rw [clean_klant_factor, clean_klant_factor, hk]
  simp only [h1, h1d, h2, h2d]
  simp [hm]

/-- Witness for C2: the congruence instantiated at the claim's concrete
inputs. -/
theorem C2_group_key_deterministic_witness :
    generate_client_month_key "Eurofins NV" "20251105" =
      generate_client_month_key " EUROFINS   nv" "20251123" :=
  C2_group_key_deterministic.1 "Eurofins NV" " EUROFINS   nv" "20251105" "20251123"
    (by decide) (by decide) (by decide) (by decide) (by decide) (by decide)

/-! ### Claim C10 -/

/-- C10: every failure mode of the durable-ledger read — missing document,
transport failure, unparseable document — makes each of the three state
readers return its empty initial state rather than propagate an error, and
that initial state has no records, no pending groups and zeroed statistics. -/
theorem C10_read_failure_bootstrap :
    (∀ now : String,
      get_state ReadOutcome.notFound now = initial_state now ∧
      get_state ReadOutcome.transportError now = initial_state now ∧
      get_state ReadOutcome.parseError now = initial_state now ∧
      get_bestdoc_state ReadOutcome.notFound now = initial_state now ∧
      get_bestdoc_state ReadOutcome.transportError now = initial_state now ∧
      get_bestdoc_state ReadOutcome.parseError now = initial_state now ∧
      (initial_state now).records = [] ∧
      (initial_state now).pending_by_client_month = [] ∧
      (initial_state now).statistics.total_records = 0 ∧
      (initial_state now).statistics.pending_bestdocs = 0 ∧
      (initial_state now).statistics.generated_bestdocs = 0) ∧
    fiscdepet_get_state ReadOutcome.notFound =
      { lastProcessedId := 0, pendingIds := [], pendingCreated := [] } ∧
    fiscdepet_get_state ReadOutcome.transportError =
      { lastProcessedId := 0, pendingIds := [], pendingCreated := [] } ∧
    fiscdepet_get_state ReadOutcome.parseError =
      { lastProcessedId := 0, pendingIds := [], pendingCreated := [] } := by
  exact ⟨fun now => ⟨rfl, rfl, rfl, rfl, rfl, rfl, rfl, rfl, rfl, rfl, rfl⟩, rfl, rfl, rfl⟩

/-! ### Claim C1 -/

/-- C1 failing input: the batch `[rdup, rdup]` carrying id 101 twice.
`add_records_to_state` computes `existing_ids` once before its loop and
never extends it inside the loop, so the ledger's `records` array receives
two entries for id 101, while the group member list (guarded separately by
`existing_ids_in_group`) receives one.  The third conjunct shows the
cross-cycle half of the claim does hold: re-ingesting id 101 in a later
cycle leaves the saved state untouched. -/
theorem C1_duplicate_in_batch :
    ((add_records_to_state [rdup, rdup] "T1" (initial_state "T0")).records.map
        (·.internfactuurnummer) = [101, 101]) ∧
    ((alistLookup
        (add_records_to_state [rdup, rdup] "T1" (initial_state "T0")).pending_by_client_month
        "ACME_202511").map (fun g => g.map (·.id)) = some [101]) ∧
    (add_records_to_state [rdup] "T2" (add_records_to_state [rdup] "T1" (initial_state "T0")) =
      add_records_to_state [rdup] "T1" (initial_state "T0")) := by
  refine ⟨by decide, by decide, by decide⟩

/-! ### Claim C3 -/

/-- C3 counterexample: the ledger contains id 7 unprocessed
(`bestdoc = false`); the claim says `filter_already_processed` removes every
record whose id is already present, but the source keeps it, because it
filters only on ids marked `bestdoc = true`. -/
theorem C3_presence_counterexample :
    ((stSeven.records.map (·.internfactuurnummer)).contains 7 = true) ∧
    filter_already_processed stSeven [rSeven] = [rSeven] ∧
    filter_already_processed stSeven [rSeven] ≠ filterUnseen_spec stSeven [rSeven] := by
  refine ⟨by decide, by decide, by decide⟩

/-- C3 (amended: "not already present in the ledger" becomes "not among the
ledger entries already marked processed"): `filter_already_processed`
returns exactly the incoming records whose id is not carried by a
`bestdoc = true` ledger entry, and its output is a sublist of the input
(the call builds a new list; the modelled state is passed by value and
never written back, matching the mutation-free source). -/
theorem C3_filter_already_processed_eq (state : BestdocState)
    (incoming : List IncomingRecord) :
    filter_already_processed state incoming =
      incoming.filter (fun r =>
        match r.INTERNFACTUURNUMMER with
        | some n =>
          ¬ ((state.records.filter (fun e => e.bestdoc)).map
              (·.internfactuurnummer)).contains n
        | none => true) ∧
    List.Sublist (filter_already_processed state incoming) incoming := by
  have heq : filter_already_processed state incoming =
      incoming.filter (fun r =>
        match r.INTERNFACTUURNUMMER with
        | some n =>
          ¬ ((state.records.filter (fun e => e.bestdoc)).map
              (·.internfactuurnummer)).contains n
        | none => true) := by
    unfold filter_already_processed
    by_cases h : incoming = []
    · simp [h]
    · simp [h]
  exact ⟨heq, heq ▸ List.filter_sublist incoming⟩

/-! ### Claim C4 -/

theorem alistLookup_eq_none_of_not_mem_keys {κ α : Type} [DecidableEq κ]
    (m : List (κ × α)) (k : κ) (h : k ∉ m.map Prod.fst) : alistLookup m k = none := by
  induction m with
  | nil => rfl
  | cons p m ih =>
    simp only [List.map_cons, List.mem_cons, not_or] at h
    rw [alistLookup_cons, if_neg (fun hh => h.1 hh.symm)]
    exact ih h.2

theorem alistLookup_map_transform {κ α β : Type} [DecidableEq κ]
    (m : List (κ × α)) (f : κ → α → β) (k : κ) :
    alistLookup (m.map (fun p => (p.1, f p.1 p.2))) k = (alistLookup m k).map (f k) := by
  induction m with
  | nil => rfl
  | cons p m ih =>
    simp only [List.map_cons]
    rw [alistLookup_cons, alistLookup_cons]
    by_cases hp : p.1 = k
    · subst hp
      simp
    · simp only [hp, if_false]
      exact ih

theorem alistLookup_filter_of_nodup {κ α : Type} [DecidableEq κ]
    (m : List (κ × α)) (pred : κ × α → Bool) (k : κ) (v : α)
    (hnd : (m.map Prod.fst).Nodup) (hv : alistLookup m k = some v) :
    alistLookup (m.filter pred) k = if pred (k, v) then some v else none := by
  induction m with
  | nil => simp [alistLookup_nil] at hv
  | cons p m ih =>
    rw [List.map_cons, List.nodup_cons] at hnd
    rw [alistLookup_cons] at hv
    rw [List.filter_cons]
    by_cases hp : p.1 = k
    · rw [if_pos hp] at hv
      have hpv : p = (k, v) := by
        cases p
        simp only at hp hv
        injection hv with hv2
        simp [hp, hv2]
      subst hpv
      by_cases hpred : pred (k, v)
      · simp [hpred, alistLookup_cons]
      · simp only [hpred, Bool.false_eq_true, if_false]
        apply alistLookup_eq_none_of_not_mem_keys
        intro hmemk
        apply hnd.1
        have hsub : List.Sublist ((m.filter pred).map Prod.fst) (m.map Prod.fst) :=
          (List.filter_sublist m).map Prod.fst
        exact hsub.mem hmemk
    · rw [if_neg hp] at hv
      by_cases hpred : pred p
      · rw [if_pos hpred, alistLookup_cons, if_neg hp]
        exact ih hnd.2 hv
      · rw [if_neg (by simpa using hpred)]
        exact ih hnd.2 hv

theorem pendingAfterCreate_lookup (pend : List (String × List PendingObj))
    (key' key : String) (g : List PendingObj) (h : alistLookup pend key = some g) :
    alistLookup (pendingAfterCreate pend key') key = some g := by
  unfold pendingAfterCreate
  by_cases hn : (alistLookup pend key').isNone
  · rw [if_pos hn, alistLookup_append, h]
  · rw [if_neg hn]
    exact h

theorem pendingAfterAppend_extends (pend : List (String × List PendingObj))
    (key' key : String) (r : IncomingRecord) (i : Int) (g : List PendingObj)
    (h : alistLookup pend key = some g) :
    ∃ t, alistLookup (pendingAfterAppend pend key' r i) key = some (g ++ t) := by
  unfold pendingAfterAppend
  by_cases hkk : key' = key
  · subst hkk
    rw [h]
    by_cases hgrp : ¬ (((some g).getD []).map (·.id)).contains i
    · rw [if_pos hgrp]
      exact ⟨[mkPendingObj r i], alistLookup_set_self _ _ _⟩
    · rw [if_neg hgrp]
      exact ⟨[], by simpa using h⟩
  · by_cases hgrp : ¬ ((((alistLookup pend key').getD []).map (·.id)).contains i)
    · rw [if_pos hgrp]
      refine ⟨[], ?_⟩
      rw [alistLookup_set_ne _ _ _ _ hkk, h, List.append_nil]
    · rw [if_neg hgrp]
      exact ⟨[], by simpa using h⟩

theorem addRecordsStep_extends (now : String) (ex : List Int)
    (acc : List RecordEntry × List (String × List PendingObj)) (r : IncomingRecord)
    (key : String) (g : List PendingObj)
    (h : alistLookup acc.2 key = some g) :
    ∃ t, alistLookup (addRecordsStep now ex acc r).2 key = some (g ++ t) := by
  unfold addRecordsStep
  cases hid : r.INTERNFACTUURNUMMER with
  | none => exact ⟨[], by simpa using h⟩
  | some i =>
    dsimp only
    by_cases hcond : i ≠ 0 ∧ ¬ ex.contains i
    · rw [if_pos hcond]
      exact pendingAfterAppend_extends _ _ _ _ _ _
        (pendingAfterCreate_lookup _ _ _ _ h)
    · rw [if_neg hcond]
      exact ⟨[], by simpa using h⟩

theorem foldl_addRecordsStep_extends (now : String) (ex : List Int)
    (incoming : List IncomingRecord)
    (acc : List RecordEntry × List (String × List PendingObj))
    (key : String) (g : List PendingObj)
    (h : alistLookup acc.2 key = some g) :
    ∃ t, alistLookup (incoming.foldl (addRecordsStep now ex) acc).2 key = some (g ++ t) := by
  induction incoming generalizing acc g with
  | nil => exact ⟨[], by simpa using h⟩
  | cons r rs ih =>
    obtain ⟨t1, h1⟩ := addRecordsStep_extends now ex acc r key g h
    obtain ⟨t2, h2⟩ := ih _ _ h1
    exact ⟨t1 ++ t2, by rw [List.foldl_cons, h2, List.append_assoc]⟩

/-- C4: after `update_after_processing` marks any subset of a group's
members processed, (1) `pending_by_client_month` — and with it every group's
permanent member list — is byte-for-byte unchanged; (2)
`get_unprocessed_pending_groups` returns the group exactly when at least one
member's record is still not marked processed; and (3) re-ingestion through
`add_records_to_state` only ever appends to a group's member list, never
removing an id. -/
theorem C4_processed_pending_decoupling
    (st : BestdocState) (pgs : List (String × List Int)) (gfs : List GeneratedFile)
    (now : String) (key : String) (members : List PendingObj)
    (hnd : (st.pending_by_client_month.map Prod.fst).Nodup)
    (hmem : alistLookup st.pending_by_client_month key = some members) :
    ((update_after_processing pgs gfs now st).pending_by_client_month =
        st.pending_by_client_month) ∧
    ((alistLookup (get_unprocessed_pending_groups (update_after_processing pgs gfs now st))
        key).isSome ↔
      ∃ o ∈ members,
        record_status (update_after_processing pgs gfs now st).records o.id = false) ∧
    (∀ (inc : List IncomingRecord) (now2 : String), ∃ tail,
      alistLookup (add_records_to_state inc now2 st).pending_by_client_month key =
        some (members ++ tail)) := by
  refine ⟨rfl, ?_, ?_⟩
  · set st' := update_after_processing pgs gfs now st with hst'
    have hpend : st'.pending_by_client_month = st.pending_by_client_month := rfl
    have hmap : alistLookup
        (st'.pending_by_client_month.map
          (fun p => (p.1, p.2.filter (fun o => ¬ record_status st'.records o.id)))) key
        = some (members.filter (fun o => ¬ record_status st'.records o.id)) := by
      rw [hpend]
      rw [alistLookup_map_transform st.pending_by_client_month
        (fun _ l => l.filter (fun o => ¬ record_status st'.records o.id)) key, hmem]
      rfl
    have hndmap : ((st'.pending_by_client_month.map
        (fun p => (p.1, p.2.filter (fun o => ¬ record_status st'.records o.id)))).map
          Prod.fst).Nodup := by
      rw [hpend]
      simpa [Function.comp] using hnd
    have hfil := alistLookup_filter_of_nodup _
      (fun p => ¬ p.2.isEmpty)
      key (members.filter (fun o => ¬ record_status st'.records o.id)) hndmap hmap
    unfold get_unprocessed_pending_groups
    rw [hfil]
    by_cases hne : (members.filter (fun o => ¬ record_status st'.records o.id)).isEmpty
    · rw [if_neg (by simpa using hne)]
      rw [List.isEmpty_iff] at hne
      simp only [Option.isSome_none, Bool.false_eq_true, false_iff]
      intro hcontra
      obtain ⟨o, ho, hos⟩ := hcontra
      have : o ∈ members.filter (fun o => ¬ record_status st'.records o.id) := by
        simp [List.mem_filter, ho, hos]
      rw [hne] at this
      exact absurd this (List.not_mem_nil o)
    · rw [if_pos (by simpa using hne)]
      simp only [Option.isSome_some, true_iff]
      rw [List.isEmpty_iff] at hne
      obtain ⟨o, ho⟩ := List.exists_mem_of_ne_nil _ hne
      rw [List.mem_filter] at ho
      exact ⟨o, ho.1, by simpa using ho.2⟩
  · intro inc now2
    unfold add_records_to_state
    by_cases hinc : inc = []
    · rw [if_pos hinc]
      exact ⟨[], by simpa using hmem⟩
    · rw [if_neg hinc]
      obtain ⟨t, ht⟩ := foldl_addRecordsStep_extends now2
        (st.records.map (·.internfactuurnummer)) inc ([], st.pending_by_client_month)
        key members hmem
      by_cases hres : (inc.foldl
          (addRecordsStep now2 (st.records.map (·.internfactuurnummer)))
          ([], st.pending_by_client_month)).1 = []
      · rw [if_pos hres]
        exact ⟨[], by simpa using hmem⟩
      · rw [if_neg hres]
        exact ⟨t, ht⟩

/-- Witness for C4: the two-member group `K` with member 1 marked processed;
the group stays listed (member 2 is still unprocessed), its member list is
untouched, and a further ingestion cycle only appends. -/
theorem C4_witness :
    ((update_after_processing pgsW gfsW "T1" stW).pending_by_client_month =
        stW.pending_by_client_month) ∧
    ((alistLookup (get_unprocessed_pending_groups (update_after_processing pgsW gfsW "T1" stW))
        "K").isSome ↔
      ∃ o ∈ membersW,
        record_status (update_after_processing pgsW gfsW "T1" stW).records o.id = false) ∧
    (∃ tail,
      alistLookup (add_records_to_state [rdup] "T2" stW).pending_by_client_month "K" =
        some (membersW ++ tail)) := by
  have h := C4_processed_pending_decoupling stW pgsW gfsW "T1" "K" membersW
    (by decide) (by decide)
  exact ⟨h.1, h.2.1, h.2.2 [rdup] "T2"⟩

/-! ### Claim C6 -/

/-- C6 counterexample: the Fiscbestdoc transformer keeps each record's line
items in their stored order — record 11 stored as sequence `[2, 1]` is
emitted as `[2, 1]`, not ascending; and the Daily transformer sorts the
whole group's items globally, so records 11 (sequences 1 and 3) and 22
(sequence 2) interleave as sources `[11, 22, 11]` — not contiguous by
record.  Both cited implementations therefore violate the claim as stated. -/
theorem C6_ordering_counterexample :
    ((fb_all_line_items [recDescending]).map (·.zendtarieflijnnummer) = [2, 1]) ∧
    (¬ List.Pairwise itemRel (fb_all_line_items [recDescending])) ∧
    ((daily_all_line_items [recOneThree, recTwo]).map (·.source_internfactuurnummer) =
      [11, 22, 11]) := by
  refine ⟨by decide, ?_, by decide⟩
  intro hpair
  have : itemRel (mkTItem 2 11) (mkTItem 1 11) := by
    apply List.rel_of_pairwise_cons (p := hpair)
    decide
  exact absurd this (by decide)

theorem foldl_append_eq_flatMap {α β : Type} (f : α → List β) (l : List α) (acc : List β) :
    l.foldl (fun a r => a ++ f r) acc = acc ++ l.flatMap f := by
  induction l generalizing acc with
  | nil => simp
  | cons r rs ih => simp [ih, List.append_assoc]

/-- C6 (amended): one render row is emitted per line item in both
transformers; the Fiscbestdoc transformer emits them grouped contiguously by
source record in the order the records were supplied with each record's
items in their *stored* order (no re-sorting), while the Daily transformer
emits the whole group's items in globally ascending `zendtarieflijnnummer`
order — a permutation of the same rows that is ascending within each record
but need not keep different records' rows contiguous. -/
theorem C6_planner_row_per_item (records : List StoredRecord) :
    (fb_all_line_items records =
      records.flatMap (fun r => r.LINE_ITEMS.map (mkTLineItem r.INTERNFACTUURNUMMER))) ∧
    ((fb_all_line_items records).length =
      (records.map (fun r => r.LINE_ITEMS.length)).sum) ∧
    List.Perm (daily_all_line_items records) (fb_all_line_items records) ∧
    List.Sorted itemRel (daily_all_line_items records) ∧
    (∀ rid : Int, List.Sorted itemRel
      ((daily_all_line_items records).filter
        (fun it => it.source_internfactuurnummer = rid))) := by
  have hflat : fb_all_line_items records =
      records.flatMap (fun r => r.LINE_ITEMS.map (mkTLineItem r.INTERNFACTUURNUMMER)) := by
    unfold fb_all_line_items
    rw [foldl_append_eq_flatMap]
    simp
  refine ⟨hflat, ?_, List.perm_insertionSort _ _, List.sorted_insertionSort _ _, ?_⟩
  · rw [hflat]
    rw [List.length_flatMap]
    congr 1
    apply List.map_congr_left
    intro r _
    simp [List.length_map]
  · intro rid
    exact List.Pairwise.filter _ (List.sorted_insertionSort _ _)

/-! ### Claim C5 -/

theorem line_items_by_record_two_records (A B : RecordInfo) (a1 a2 a3 b1 b2 : TLineItem)
    (hAB : A.internfactuurnummer ≠ B.internfactuurnummer)
    (ha1 : a1.source_internfactuurnummer = A.internfactuurnummer)
    (ha2 : a2.source_internfactuurnummer = A.internfactuurnummer)
    (ha3 : a3.source_internfactuurnummer = A.internfactuurnummer)
    (hb1 : b1.source_internfactuurnummer = B.internfactuurnummer)
    (hb2 : b2.source_internfactuurnummer = B.internfactuurnummer) :
    line_items_by_record [a1, a2, a3, b1, b2] =
      [(A.internfactuurnummer, [a1, a2, a3]), (B.internfactuurnummer, [b1, b2])] := by
  simp [line_items_by_record, alistLookup, alistSet, List.find?, ha1, ha2, ha3, hb1, hb2,
    hAB, Ne.symm hAB]

theorem buildTableRows_two_records (first : RecordInfo → TLineItem → List String)
    (rest : TLineItem → List String) (A B : RecordInfo) (a1 a2 a3 b1 b2 : TLineItem)
    (hAB : A.internfactuurnummer ≠ B.internfactuurnummer)
    (ha1 : a1.source_internfactuurnummer = A.internfactuurnummer)
    (ha2 : a2.source_internfactuurnummer = A.internfactuurnummer)
    (ha3 : a3.source_internfactuurnummer = A.internfactuurnummer)
    (hb1 : b1.source_internfactuurnummer = B.internfactuurnummer)
    (hb2 : b2.source_internfactuurnummer = B.internfactuurnummer) :
    buildTableRows first rest [A, B] [a1, a2, a3, b1, b2] =
      ([first A a1, rest a2, rest a3, first B b1, rest b2],
       [(A.internfactuurnummer, 1), (B.internfactuurnummer, 4)]) := by
  rw [buildTableRows, line_items_by_record_two_records A B a1 a2 a3 b1 b2 hAB ha1 ha2 ha3 hb1 hb2]
  simp [alistLookup, List.find?, hAB, Ne.symm hAB]

/-- C5: for a group of Record A with line items `a1 a2 a3` followed by
Record B with line items `b1 b2`, both `draw_table` row builders emit
exactly 5 data rows in that order; rows 2, 3 and 5 carry empty shared
columns while rows 1 and 4 carry A's respectively B's shared columns; the
record start rows are 1 and 4; and the Daily variant's group-boundary rule
list places a rule only before row 4 — never inside rows 1-3 or 4-5. -/
theorem C5_row_merge_invariant (A B : RecordInfo) (a1 a2 a3 b1 b2 : TLineItem)
    (hAB : A.internfactuurnummer ≠ B.internfactuurnummer)
    (ha1 : a1.source_internfactuurnummer = A.internfactuurnummer)
    (ha2 : a2.source_internfactuurnummer = A.internfactuurnummer)
    (ha3 : a3.source_internfactuurnummer = A.internfactuurnummer)
    (hb1 : b1.source_internfactuurnummer = B.internfactuurnummer)
    (hb2 : b2.source_internfactuurnummer = B.internfactuurnummer) :
    ((buildTableRows rowFirstDaily rowRestDaily [A, B] [a1, a2, a3, b1, b2]).1.length = 5) ∧
    ((buildTableRows rowFirstDaily rowRestDaily [A, B] [a1, a2, a3, b1, b2]).1.map
        (fun row => row.take 6) =
      [[A.mrn, toString A.declarationid, A.exportername, A.datum, A.reference,
          toString A.processfactuurnummer],
       ["", "", "", "", "", ""],
       ["", "", "", "", "", ""],
       [B.mrn, toString B.declarationid, B.exportername, B.datum, B.reference,
          toString B.processfactuurnummer],
       ["", "", "", "", "", ""]]) ∧
    ((buildTableRows rowFirstDaily rowRestDaily [A, B] [a1, a2, a3, b1, b2]).2 =
      [(A.internfactuurnummer, 1), (B.internfactuurnummer, 4)]) ∧
    (boundaryRules
        (buildTableRows rowFirstDaily rowRestDaily [A, B] [a1, a2, a3, b1, b2]).2 = [4]) ∧
    ((buildTableRows rowFirstFB rowRestFB [A, B] [a1, a2, a3, b1, b2]).1.length = 5) ∧
    ((buildTableRows rowFirstFB rowRestFB [A, B] [a1, a2, a3, b1, b2]).1.map
        (fun row => row.take 6) =
      [[A.mrn, toString A.declarationid, A.exportername, A.datum, refCellFB A.reference,
          toString A.processfactuurnummer],
       ["", "", "", "", "", ""],
       ["", "", "", "", "", ""],
       [B.mrn, toString B.declarationid, B.exportername, B.datum, refCellFB B.reference,
          toString B.processfactuurnummer],
       ["", "", "", "", "", ""]]) ∧
    ((buildTableRows rowFirstFB rowRestFB [A, B] [a1, a2, a3, b1, b2]).2 =
      [(A.internfactuurnummer, 1), (B.internfactuurnummer, 4)]) := by
  have hD := buildTableRows_two_records rowFirstDaily rowRestDaily A B a1 a2 a3 b1 b2
    hAB ha1 ha2 ha3 hb1 hb2
  have hF := buildTableRows_two_records rowFirstFB rowRestFB A B a1 a2 a3 b1 b2
    hAB ha1 ha2 ha3 hb1 hb2
  rw [hD, hF]
  refine ⟨rfl, ?_, rfl, rfl, rfl, ?_, rfl⟩
  · simp [rowFirstDaily, rowRestDaily]
  · simp [rowFirstFB, rowRestFB]

/-- Witness for C5: records 1 and 2 with concrete line items. -/
theorem C5_row_merge_invariant_witness :
    ((buildTableRows rowFirstDaily rowRestDaily [mkRecInfo 1 "MRN-A", mkRecInfo 2 "MRN-B"]
        [mkTItem 1 1, mkTItem 2 1, mkTItem 3 1, mkTItem 1 2, mkTItem 2 2]).1.length = 5) ∧
    (boundaryRules
        (buildTableRows rowFirstDaily rowRestDaily [mkRecInfo 1 "MRN-A", mkRecInfo 2 "MRN-B"]
          [mkTItem 1 1, mkTItem 2 1, mkTItem 3 1, mkTItem 1 2, mkTItem 2 2]).2 = [4]) := by
  have h := C5_row_merge_invariant (mkRecInfo 1 "MRN-A") (mkRecInfo 2 "MRN-B")
    (mkTItem 1 1) (mkTItem 2 1) (mkTItem 3 1) (mkTItem 1 2) (mkTItem 2 2)
    (by decide) (by decide) (by decide) (by decide) (by decide) (by decide)
  exact ⟨h.1, h.2.2.2.1⟩

/-! ### Claim C9 -/

set_option maxRecDepth 8000 in
/-- C9 counterexample: `wrap_description` does truncate.  With the
character-count measurer and limit 5, the single word `"abcdefgh"` (width 8)
is emitted as `"abcdefgh..."` — its 30-character prefix plus an ellipsis —
rather than being placed alone unmodified, refuting "never split, truncated,
or hyphenated" for the cited `wrap_description`. -/
theorem C9_truncation_counterexample :
    (pyWords "abcdefgh" = ["abcdefgh"]) ∧
    (5 < lenMw "abcdefgh") ∧
    wrap_description lenMw "abcdefgh" 5 = ["abcdefgh..."] ∧
    wrap_description lenMw "abcdefgh" 5 ≠ ["abcdefgh"] := by
  refine ⟨by decide, by decide, by decide, by decide⟩

theorem pyWordsAux_mem_ne_empty (l : List Char) : ∀ cur w, w ∈ pyWordsAux l cur → w ≠ "" := by
  induction l with
  | nil =>
    intro cur w hw
    unfold pyWordsAux at hw
    by_cases hc : cur = []
    · rw [if_pos hc] at hw
      exact absurd hw (List.not_mem_nil w)
    · rw [if_neg hc] at hw
      rw [List.mem_singleton] at hw
      subst hw
      intro hcontra
      apply hc
      have hrev : cur.reverse = [] := by simpa using congrArg String.data hcontra
      simpa using hrev
  | cons c cs ih =>
    intro cur w hw
    unfold pyWordsAux at hw
    by_cases hws : c.isWhitespace
    · rw [if_pos hws] at hw
      by_cases hc : cur = []
      · rw [if_pos hc] at hw
        exact ih [] w hw
      · rw [if_neg hc] at hw
        rcases List.mem_cons.mp hw with heq | htail
        · subst heq
          intro hcontra
          apply hc
          have hrev : cur.reverse = [] := by simpa using congrArg String.data hcontra
          simpa using hrev
        · exact ih [] w htail
    · rw [if_neg hws] at hw
      exact ih (c :: cur) w hw

theorem mw_le_wrapConcat (mw : String → Nat)
    (hmono : ∀ s t : String, mw s ≤ mw (s ++ t) ∧ mw t ≤ mw (s ++ t))
    (cur w : String) : mw w ≤ mw (wrapConcat cur w) := by
  unfold wrapConcat
  by_cases hc : cur = ""
  · rw [if_pos hc]
  · rw [if_neg hc]
    exact (hmono (cur ++ " ") w).2

theorem wrapLines_mem_self (mw : String → Nat)
    (hmono : ∀ s t : String, mw s ≤ mw (s ++ t) ∧ mw t ≤ mw (s ++ t))
    (maxWidth : Nat) (W : String) (hwide : maxWidth < mw W) (hne : W ≠ "") :
    ∀ ws : List String, W ∈ wrapLines mw maxWidth ws W := by
  intro ws
  induction ws with
  | nil =>
    unfold wrapLines
    rw [if_neg hne]
    exact List.mem_singleton.mpr rfl
  | cons w2 ws ih =>
    unfold wrapLines
    have hnofit : ¬ mw (wrapConcat W w2) ≤ maxWidth := by
      have h1 : mw W ≤ mw (wrapConcat W w2) := by
        unfold wrapConcat
        rw [if_neg hne, String.append_assoc]
        exact (hmono W (" " ++ w2)).1
      omega
    rw [if_neg hnofit, if_neg hne]
    exact List.mem_cons_self _ _

theorem wrapLines_mem (mw : String → Nat)
    (hmono : ∀ s t : String, mw s ≤ mw (s ++ t) ∧ mw t ≤ mw (s ++ t))
    (maxWidth : Nat) (W : String) (hwide : maxWidth < mw W) (hne : W ≠ "") :
    ∀ (ws : List String) (cur : String), W ∈ ws → W ∈ wrapLines mw maxWidth ws cur := by
  intro ws
  induction ws with
  | nil => intro cur h; exact absurd h (List.not_mem_nil W)
  | cons w ws ih =>
    intro cur hmem
    unfold wrapLines
    rcases List.mem_cons.mp hmem with heq | htail
    · subst heq
      have hnofit : ¬ mw (wrapConcat cur W) ≤ maxWidth := by
        have := mw_le_wrapConcat mw hmono cur W
        omega
      rw [if_neg hnofit]
      by_cases hc : cur = ""
      · rw [if_pos hc]
        exact wrapLines_mem_self mw hmono maxWidth W hwide hne ws
      · rw [if_neg hc]
        exact List.mem_cons_of_mem _ (wrapLines_mem_self mw hmono maxWidth W hwide hne ws)
    · by_cases hfit : mw (wrapConcat cur w) ≤ maxWidth
      · rw [if_pos hfit]
        exact ih _ htail
      · rw [if_neg hfit]
        by_cases hc : cur = ""
        · rw [if_pos hc]
          exact ih _ htail
        · rw [if_neg hc]
          exact List.mem_cons_of_mem _ (ih _ htail)

/-- C9 (amended): for any concatenation-monotone measurer, a word of the
text wider than the limit appears verbatim as a full output line of
`wrap_text` — it is never split, truncated or merged with other words; the
`wrap_description` of DkmFiscdepetProcessor instead, when such a word is the
sole word (so it starts a line), emits its 30-character prefix plus
`"..."`. -/
theorem C9_over_wide_word (mw : String → Nat)
    (hmono : ∀ s t : String, mw s ≤ mw (s ++ t) ∧ mw t ≤ mw (s ++ t))
    (text : String) (maxWidth : Nat) (W : String)
    (hW : W ∈ pyWords text) (hwide : maxWidth < mw W) :
    (W ∈ wrap_text mw text maxWidth) ∧
    (pyWords text = [W] → wrap_description mw text maxWidth = [W.take 30 ++ "..."]) := by
  have hne : W ≠ "" := pyWordsAux_mem_ne_empty text.data [] W hW
  constructor
  · exact wrapLines_mem mw hmono maxWidth W hwide hne (pyWords text) "" hW
  · intro hsingle
    unfold wrap_description
    rw [hsingle]
    unfold wrapDescLines
    rw [if_pos rfl]
    have hnofit : ¬ mw W ≤ maxWidth := by omega
    rw [if_neg hnofit]
    rfl

set_option maxRecDepth 8000 in
/-- Witness for C9: with the character-count measurer and limit 5, the
8-character word `"abcdefgh"` appears alone and intact among the wrapped
lines of `"ab abcdefgh cd"`, and `wrap_description` of the single word
truncates it. -/
theorem C9_over_wide_word_witness :
    ("abcdefgh" ∈ wrap_text lenMw "ab abcdefgh cd" 5) ∧
    wrap_description lenMw "abcdefgh" 5 = ["abcdefgh..."] := by
  have hmono : ∀ s t : String, lenMw s ≤ lenMw (s ++ t) ∧ lenMw t ≤ lenMw (s ++ t) := by
    intro s t
    constructor <;> simp [lenMw, String.length_append]
  have h1 := C9_over_wide_word lenMw hmono "ab abcdefgh cd" 5 "abcdefgh"
    (by decide) (by decide)
  have h2 := C9_over_wide_word lenMw hmono "abcdefgh" 5 "abcdefgh"
    (by decide) (by decide)
  exact ⟨h1.1, by simpa using h2.2 (by decide)⟩

/-! ### Claims C7 and C8 -/

theorem takeFitting_append (avail : Int) :
    ∀ (used : Nat) (l : List (Nat × Nat)),
      (takeFitting avail used l).1 ++ (takeFitting avail used l).2 = l := by
  intro used l
  induction l generalizing used with
  | nil => rfl
  | cons r rs ih =>
    unfold takeFitting
    by_cases h : ((used + r.2 : Nat) : Int) ≤ avail
    · rw [if_pos h]
      simpa using ih (used + r.2)
    · rw [if_neg h]
      rfl

theorem pySplit_spec (t : PTable) (a : Int) :
    pySplit t a = [] ∨ pySplit t a = [t] ∨
    ∃ p1 p2,
      pySplit t a =
        [{ header := t.header, rows := p1 }, { header := t.header, rows := p2 }] ∧
      p1 ++ p2 = t.rows := by
  unfold pySplit
  by_cases h1 : (takeFitting a t.header t.rows).1 = []
  · left
    rw [if_pos h1]
  · right
    by_cases h2 : (takeFitting a t.header t.rows).2 = []
    · left
      rw [if_neg h1, if_pos h2]
    · right
      exact ⟨_, _, by rw [if_neg h1, if_neg h2], takeFitting_append a t.header t.rows⟩

theorem rowsDrawn_append (a b : List Ev) :
    rowsDrawn (a ++ b) = rowsDrawn a ++ rowsDrawn b := by
  simp [rowsDrawn]

theorem drawLoop_draws_all (ph : Int) :
    ∀ (fuel : Nat) (t : PTable) (y : Int) (j : Nat),
      j ∈ t.rows.map (·.1) → j ∈ rowsDrawn (drawLoop ph fuel t y) := by
  intro fuel
  induction fuel with
  | zero =>
    intro t y j hj
    simpa [drawLoop, rowsDrawn] using hj
  | succ fuel ih =>
    intro t y j hj
    unfold drawLoop
    by_cases hfit : (wrapHeight t : Int) ≤ y - bottomMargin
    · rw [if_pos hfit]
      simpa [rowsDrawn] using hj
    · rw [if_neg hfit]
      rcases pySplit_spec t (y - bottomMargin) with hs | hs | ⟨p1, p2, hs, happ⟩
      · simp only [hs]
        rcases pySplit_spec t ((ph - freshTopOffset) - bottomMargin) with
          hs2 | hs2 | ⟨q1, q2, hs2, happ2⟩
        · simp only [hs2]
          simpa [rowsDrawn] using hj
        · simp only [hs2]
          simp only [rowsDrawn, List.flatMap_cons, List.flatMap_nil, List.append_nil,
            List.nil_append, List.mem_append]
          exact Or.inl hj
        · simp only [hs2]
          rw [← happ2, List.map_append] at hj
          rcases List.mem_append.mp hj with hj1 | hj2
          · simp only [rowsDrawn, List.flatMap_append, List.flatMap_cons, List.flatMap_nil,
              List.append_nil, List.nil_append, List.mem_append]
            exact Or.inl (Or.inl hj1)
          · have hrec := ih { header := t.header, rows := q2 } (ph - freshTopOffset) j
              (by simpa using hj2)
            rw [rowsDrawn_append]
            simp only [List.mem_append]
            exact Or.inr hrec
      · simp only [hs]
        simp only [rowsDrawn, List.flatMap_cons, List.flatMap_nil, List.append_nil,
          List.mem_append]
        exact Or.inl hj
      · simp only [hs]
        rw [← happ, List.map_append] at hj
        rcases List.mem_append.mp hj with hj1 | hj2
        · rw [rowsDrawn_append]
          simp only [rowsDrawn, List.flatMap_cons, List.flatMap_nil, List.append_nil,
            List.mem_append]
          exact Or.inl (Or.inl hj1)
        · have hrec := ih { header := t.header, rows := p2 } (ph - freshTopOffset) j
            (by simpa using hj2)
          rw [rowsDrawn_append]
          simp only [List.mem_append]
          exact Or.inr hrec

theorem pySplit_single_oversized (t : PTable) (a : Int) (i h : Nat)
    (hrows : t.rows = [(i, h)]) (hbig : a < (wrapHeight t : Int)) :
    pySplit t a = [] := by
  have hsum : (wrapHeight t : Int) = ((t.header + h : Nat) : Int) := by
    rw [wrapHeight, hrows]
    simp
  unfold pySplit
  rw [if_pos]
  rw [hrows]
  unfold takeFitting
  rw [if_neg]
  omega

theorem drawLoop_oversized (ph : Int) (fuel : Nat) (t : PTable) (y : Int) (i h : Nat)
    (hrows : t.rows = [(i, h)])
    (hcur : y - bottomMargin < (wrapHeight t : Int))
    (hfresh : (ph - freshTopOffset) - bottomMargin < (wrapHeight t : Int)) :
    drawLoop ph (fuel + 1) t y = [Ev.newPage, Ev.draw t] := by
  unfold drawLoop
  rw [if_neg (not_le.mpr hcur)]
  simp only [pySplit_single_oversized t _ i h hrows hcur,
    pySplit_single_oversized t _ i h hrows hfresh]

/-- C7: the Daily pagination loop draws the fitted segment twice whenever a
page split occurs — the source duplicates the `part0.drawOn` block — so with
page height 100, start offset 30 and the two-row table `tSplit`, row 0 is
drawn twice while the claim demands exactly once; the Fiscdepet
`draw_professional_table`, in contrast, draws each planned row exactly once
and one header per page for every measurer, geometry and item list. -/
theorem C7_pagination_completeness :
    (rowsDrawn (draw_table_pagination 100 tSplit 30) = [0, 0, 1]) ∧
    ((rowsDrawn (draw_table_pagination 100 tSplit 30)).count 0 = 2) ∧
    (∀ (mw : String → Nat) (maxw : Nat) (freshY minY y : Int) (items : List DepetItem),
      countRowEvents (draw_professional_table mw maxw freshY minY y items) =
        items.length ∧
      countHeaderEvents (draw_professional_table mw maxw freshY minY y items) =
        min 1 items.length +
          countPageBreaks (draw_professional_table mw maxw freshY minY y items)) := by
  refine ⟨by decide, by decide, ?_⟩
  intro mw maxw freshY minY y items
  have hrows : ∀ (l : List (Nat × DepetItem)) (y0 : Int),
      countRowEvents (depetRows mw maxw freshY minY l y0) = l.length ∧
      countHeaderEvents (depetRows mw maxw freshY minY l y0) =
        countPageBreaks (depetRows mw maxw freshY minY l y0) := by
    intro l
    induction l with
    | nil => intro y0; exact ⟨rfl, rfl⟩
    | cons p rest ih =>
      intro y0
      obtain ⟨i, it⟩ := p
      unfold depetRows
      by_cases hbr : y0 - (depet_row_height mw maxw it : Int) < minY
      · rw [if_pos hbr]
        have hr := ih (freshY - (depet_row_height mw maxw it : Int))
        simp only [countRowEvents, countHeaderEvents, countPageBreaks,
          List.filter_cons] at hr ⊢
        simp [hr.1, hr.2]
      · rw [if_neg hbr]
        have hr := ih (y0 - (depet_row_height mw maxw it : Int))
        simp only [countRowEvents, countHeaderEvents, countPageBreaks,
          List.filter_cons] at hr ⊢
        simp [hr.1, hr.2]
  cases items with
  | nil => exact ⟨rfl, rfl⟩
  | cons x xs =>
    unfold draw_professional_table
    have hr := hrows ((x :: xs).enum) (y - 20)
    simp [countRowEvents, countHeaderEvents, countPageBreaks,
      List.filter_cons, List.enum_length] at hr ⊢
    omega

/-- C8: a single synthetic row taller than both the current page remainder
and a full fresh page's body makes the loop page-break once, retry the split
once, force-draw the oversized table once, and stop — all in its first
iteration, far inside the 50-iteration cap; and for every input whatsoever
the loop terminates having drawn every planned row at least once (nothing is
dropped, even when the cap force-draws the remainder). -/
theorem C8_termination_bound (pageHeight y : Int) (t : PTable) (i h : Nat)
    (hrows : t.rows = [(i, h)])
    (hcur : y - bottomMargin < (wrapHeight t : Int))
    (hfresh : (pageHeight - freshTopOffset) - bottomMargin < (wrapHeight t : Int)) :
    (draw_table_pagination pageHeight t y = [Ev.newPage, Ev.draw t]) ∧
    (∀ (ph y2 : Int) (t2 : PTable) (j : Nat),
      j ∈ t2.rows.map (·.1) → j ∈ rowsDrawn (draw_table_pagination ph t2 y2)) := by
  constructor
  · exact drawLoop_oversized pageHeight 49 t y i h hrows hcur hfresh
  · intro ph y2 t2 j hj
    exact drawLoop_draws_all ph 50 t2 y2 j hj

/-- Witness for C8: the 200-unit row of `tHuge` against page height 100. -/
theorem C8_termination_bound_witness :
    (draw_table_pagination 100 tHuge 30 = [Ev.newPage, Ev.draw tHuge]) ∧
    (0 ∈ rowsDrawn (draw_table_pagination 100 tHuge 30)) := by
  have hC8 := C8_termination_bound 100 30 tHuge 0 200 rfl (by decide) (by decide)
  exact ⟨hC8.1, hC8.2 100 30 tHuge 0 (by decide)⟩

end DkmSpec
